import Mathlib

/-!
Shallow embedding of the two modules of the ilo-ansible-collection repository:
  * src/plugins/modules/set_service_bios_attributes.py
  * src/plugins/modules/ilo_redfish_config.py

Python dicts are modelled as association lists with no duplicate keys
(`Dict`), and the Redfish HTTP client as an oracle function from URIs to
responses.  `module.fail_json` / `module.exit_json` raise SystemExit in
Ansible, so every call site is modelled as an early return of a dedicated
outcome constructor; code after such a call is unreachable and is therefore
not part of the corresponding branch of the Lean definition.  The parsed
JSON body of a response (`json.loads(response.text)`) is modelled by a
`JsonBody` record carried alongside the raw `text`, exposing the two body
accesses the code performs (`["Bios"]["@odata.id"]` and `["Attributes"]`).
-/

/-- Python dict modelled as an association list keyed by strings. -/
abbrev Dict (V : Type) := List (String × V)

/-- Key lookup, `d[k]` / `k in d`: first binding wins (keys are unique). -/
def dlookup {V : Type} : Dict V → String → Option V
  | [], _ => none
  | (k, v) :: rest, key => if k = key then some v else dlookup rest key

/-- Deletion `del d[k]`: remove every binding of `key` (at most one, keys unique). -/
def derase {V : Type} (d : Dict V) (key : String) : Dict V :=
  d.filter (fun p => decide (p.1 ≠ key))

/-- Update `d.update({k: v})`: replace in place when the key exists, else append. -/
def dupdate {V : Type} (d : Dict V) (key : String) (v : V) : Dict V :=
  if (dlookup d key).isSome then
    d.map (fun p => if p.1 = key then (key, v) else p)
  else d ++ [(key, v)]

/-- The keys of a dict, in order. -/
def dkeys {V : Type} (d : Dict V) : List String := d.map Prod.fst

/-- Source constant `base_uri = "/redfish/v1/"` (module-level constant of the source). -/
def base_uri : String := "/redfish/v1/"

/-- Source constant `system_uri = "systems/1/"` (module-level constant of the source). -/
def system_uri : String := "systems/1/"

/-- Parsed JSON body of a Redfish response; `biosOdataId` is
`body["Bios"]["@odata.id"]` when the `"Bios"` key is present (else `none`),
and `attributes` is the `body["Attributes"]` sub-object. -/
structure JsonBody where
  biosOdataId : Option String
  attributes : Dict String
deriving DecidableEq, Repr

/-- An HTTP response: status code, raw text, and its parsed body. -/
structure HttpResp where
  status : Nat
  text : String
  body : JsonBody
deriving DecidableEq, Repr

/-- Response to a PATCH request. -/
structure PatchResp where
  status : Nat
  text : String
deriving DecidableEq, Repr

/-- The redfish client: an oracle giving the response of each GET and
PATCH.  The PATCH argument is the `Attributes` sub-object of the body
`{"Attributes": ...}` actually sent by the code. -/
structure Client where
  get : String → HttpResp
  patch : String → Dict String → PatchResp

/-- Data carried by `error_msg(module, method, uri, status, response)`
(set_service_bios_attributes.py lines 145-150). -/
structure ErrInfo where
  method : String
  uri : String
  status : Nat
  response : String
deriving DecidableEq, Repr

/-- The loop of `validate_input_attributes` (lines 160-170): walk the
requested items, deleting from the patch copy every name absent from the
current attributes (also recording it as bad) and every name whose current
value already equals the requested one. -/
def validateScan (cur : Dict String) :
    List (String × String) → Dict String → Dict String → Dict String × Dict String
  | [], toPatch, bad => (toPatch, bad)
  | (k, v) :: rest, toPatch, bad =>
    match dlookup cur k with
    | none => validateScan cur rest (derase toPatch k) (dupdate bad k v)
    | some c =>
      if c = v then validateScan cur rest (derase toPatch k) bad
      else validateScan cur rest toPatch bad

/-- Exit behaviour of `validate_input_attributes`: fail_json on bad
attributes, exit_json (changed=False) on an empty patch set, else a normal
return.  The Python function returns `None`; `proceed` records the local
`attrs_to_patch` at the return point purely so that invariants can be
stated about it — the caller discards it, exactly as the source does. -/
inductive ValidateOutcome where
  | failBad (bad : Dict String)
  | exitAlreadySet
  | proceed (toPatch : Dict String)
deriving DecidableEq, Repr

/-- Source function `validate_input_attributes(module, service_bios, attributes)`
(lines 153-177). -/
def validate_input_attributes (service_bios : JsonBody) (attributes : Dict String) :
    ValidateOutcome :=
  let s := validateScan service_bios.attributes attributes attributes []
  if s.2.isEmpty then
    if s.1.isEmpty then ValidateOutcome.exitAlreadySet
    else ValidateOutcome.proceed s.1
  else ValidateOutcome.failBad s.2

/-- Suffix `"service/settings/"` of the primary service-settings path. -/
def service_settings_path : String := "service/settings/"

/-- Suffix `"oem/hpe/service/settings/"` of the OEM fallback path. -/
def oem_settings_path : String := "oem/hpe/service/settings/"

/-- Source function `get_service_bios_attributes(redfishClient, module, bios_uri)`
(lines 180-193): GET the primary path; on a 404 retry once against the OEM
path; fail via `error_msg` when the final status is not 200, else return
the final URI and parsed body. -/
def get_service_bios_attributes (get : String → HttpResp) (bios_uri : String) :
    Except ErrInfo (String × JsonBody) :=
  let service_uri := bios_uri ++ service_settings_path
  let response := get service_uri
  let step :=
    if response.status = 404 then
      let service_uri2 := bios_uri ++ oem_settings_path
      (service_uri2, get service_uri2)
    else (service_uri, response)
  if step.2.status ≠ 200 then
    Except.error { method := "GET", uri := step.1, status := step.2.status,
                   response := step.2.text }
  else Except.ok (step.1, step.2.body)

/-- The ordered list of URIs that `get_service_bios_attributes` GETs:
the primary path, followed by the OEM path exactly when the primary
returned 404 (same control flow as `get_service_bios_attributes`). -/
def serviceGetUris (get : String → HttpResp) (bios_uri : String) : List String :=
  let service_uri := bios_uri ++ service_settings_path
  if (get service_uri).status = 404 then
    [service_uri, bios_uri ++ oem_settings_path]
  else [service_uri]

/-- Exit behaviour of `set_service_bios_attributes` (lines 196-226).
`exitJson`/the failure constructors model the terminating
`module.exit_json` / `module.fail_json` calls; `returned` is the normal
return after a successful PATCH, recording the PATCH target URI and the
`Attributes` sub-object of the PATCH body. -/
inductive SetOutcome where
  | getSystemFailed (e : ErrInfo)
  | biosKeyMissing (uri : String)
  | getServiceFailed (e : ErrInfo)
  | badAttributes (bad : Dict String)
  | exitJson (changed : Bool) (msg : String)
  | patchFailed (status : Nat) (text : String) (uri : String) (body : Dict String)
  | returned (uri : String) (body : Dict String)
deriving DecidableEq, Repr

/-- Source function `set_service_bios_attributes(redfishClient, module)` (lines 196-226).
Note line 218: the PATCH body is `{"Attributes": service_attributes}` —
the full requested mapping, not the `attrs_to_patch` computed (and
discarded) inside `validate_input_attributes`. -/
def set_service_bios_attributes (client : Client) (service_attributes : Dict String) :
    SetOutcome :=
  let uri := base_uri ++ system_uri
  let server_data := client.get uri
  if server_data.status ≠ 200 then
    SetOutcome.getSystemFailed
      { method := "GET", uri := uri, status := server_data.status,
        response := server_data.text }
  else
    match server_data.body.biosOdataId with
    | none => SetOutcome.biosKeyMissing uri
    | some bios_uri =>
      match get_service_bios_attributes client.get bios_uri with
      | Except.error e => SetOutcome.getServiceFailed e
      | Except.ok (service_uri, server_service_bios) =>
        match validate_input_attributes server_service_bios service_attributes with
        | ValidateOutcome.failBad bad => SetOutcome.badAttributes bad
        | ValidateOutcome.exitAlreadySet =>
          SetOutcome.exitJson false "Service BIOS attributes already set"
        | ValidateOutcome.proceed _ =>
          let response := client.patch service_uri service_attributes
          if response.status ≠ 200 then
            SetOutcome.patchFailed response.status response.text service_uri
              service_attributes
          else SetOutcome.returned service_uri service_attributes

/-- The PATCH request issued by a run, read off the outcome: a PATCH is
sent exactly on the `patchFailed` and `returned` branches. -/
def patchSent : SetOutcome → Option (String × Dict String)
  | SetOutcome.patchFailed _ _ uri body => some (uri, body)
  | SetOutcome.returned uri body => some (uri, body)
  | _ => none

/-- Whether `set_service_bios_attributes` returned normally. -/
def isReturned : SetOutcome → Bool
  | SetOutcome.returned _ _ => true
  | _ => false

/-- Result of running `main()` of set_service_bios_attributes.py:
the exit it takes and whether `logout` was reached. -/
structure MainRun where
  outcome : SetOutcome
  logoutCalled : Bool
deriving DecidableEq, Repr

/-- Source function `main()` (lines 229-258), after a successful login: `logout` at line
255 runs only when `set_service_bios_attributes` returns normally, since
every `fail_json`/`exit_json` inside it raises SystemExit first. -/
def bios_main (client : Client) (service_attributes : Dict String) : MainRun :=
  let o := set_service_bios_attributes client service_attributes
  { outcome := o, logoutCalled := isReturned o }

/-!
Embedding of ilo_redfish_config.py.  The `iLORedfishUtils` routines
(`set_time_zone`, ... — imported from community.general, outside this
repository) are external collaborators; they are modelled as an oracle
`RfUtils`: `find_managers` is the result record of
`_find_managers_resource()` and `run cmd` is the result dict returned by
`dispatch[cmd](mgr_attributes)` (the `mgr_attributes` argument is fixed
per invocation, so it is folded into the oracle).  The module-local
variable `result`, initialised to the empty dict `{}` at line 113 and
assigned whole result dicts by the loop, is modelled as
`Option OpResult`: `none` is the initial `{}`, which has no `"ret"` key.
-/

/-- A result dict returned by a dispatch routine:
`{"ret": ..., "changed": ..., "msg": ...}`. -/
structure OpResult where
  ret : Bool
  changed : Bool
  msg : String
deriving DecidableEq, Repr

/-- Result record of `rf_utils._find_managers_resource()`. -/
structure FindResult where
  ret : Bool
  msg : String
deriving DecidableEq, Repr

/-- Oracle for the external iLORedfishUtils collaborator. -/
structure RfUtils where
  find_managers : FindResult
  run : String → OpResult

/-- Source constant `CATEGORY_COMMANDS_ALL` (ilo_redfish_config.py lines 103-105). -/
def CATEGORY_COMMANDS_ALL : Dict (List String) :=
  [("Manager", ["SetTimeZone", "SetDNSserver", "SetDomainName", "SetNTPServers",
                "SetWINSReg"])]

/-- Access `CATEGORY_COMMANDS_ALL[category]` (category is always a key, since the
argument spec restricts it to the dict keys). -/
def allowedCommands (category : String) : List String :=
  (dlookup CATEGORY_COMMANDS_ALL category).getD []

/-- Exit behaviour of `main()` of ilo_redfish_config.py.  `missingRetKey`
is the final `if result['ret']` (line 176) evaluated on a result mapping
with no `"ret"` key — in Python, an uncaught KeyError rather than a
success or failure report. -/
inductive IloOutcome where
  | invalidCommands (offending : List String) (allowed : List String)
  | findManagersFailed (msg : String)
  | missingRetKey
  | exitJson (changed : Bool) (msg : String)
  | failJson (msg : String)
deriving DecidableEq, Repr

/-- The final `if result['ret']: exit_json(...) else: fail_json(...)`
(lines 176-180), on the possibly-still-empty result mapping. -/
def finalRetCheck : Option OpResult → IloOutcome
  | none => IloOutcome.missingRetKey
  | some r =>
    if r.ret then IloOutcome.exitJson r.changed r.msg
    else IloOutcome.failJson r.msg

/-- Source function `main()` of ilo_redfish_config.py (lines 112-180), from the point the
parameters are available: collect the offending commands and fail listing
them all; locate the managers resource; run every listed command in order,
each overwriting `result`; finally report from `result`. -/
def ilo_main (rf : RfUtils) (category : String) (command_list : List String) :
    IloOutcome :=
  let allowed := allowedCommands category
  let offending := command_list.filter (fun cmd => decide (cmd ∉ allowed))
  if offending.isEmpty then
    if category = "Manager" then
      if rf.find_managers.ret then
        finalRetCheck
          (command_list.foldl (fun _ cmd => some (rf.run cmd)) none)
      else IloOutcome.findManagersFailed rf.find_managers.msg
    else finalRetCheck none
  else IloOutcome.invalidCommands offending allowed

/-- The commands whose dispatch routine `main()` actually invokes, in
order (same control flow as `ilo_main`): none when validation or resource
location fails, otherwise the whole list — the loop at lines 173-174 has
no break, so no result aborts it. -/
def executedCommands (rf : RfUtils) (category : String)
    (command_list : List String) : List String :=
  let allowed := allowedCommands category
  let offending := command_list.filter (fun cmd => decide (cmd ∉ allowed))
  if offending.isEmpty then
    if category = "Manager" then
      if rf.find_managers.ret then command_list else []
    else []
  else []

/-! Concrete inputs used to exercise the definitions. -/

/-- A current attribute set where `A` is already at its desired value and
`B` is not. -/
def curDivergence : Dict String := [("A", "1"), ("B", "2")]

/-- The desired change against `curDivergence`: `A` unchanged, `B` new. -/
def attrsDivergence : Dict String := [("A", "1"), ("B", "3")]

/-- A client whose system resource links to BIOS at `b/` and whose
service-settings resource reports `curDivergence`; every PATCH succeeds. -/
def clientDivergence : Client :=
  { get := fun uri =>
      if uri = "/redfish/v1/systems/1/" then
        { status := 200, text := "sys",
          body := { biosOdataId := some "b/", attributes := [] } }
      else
        { status := 200, text := "svc",
          body := { biosOdataId := none, attributes := curDivergence } },
    patch := fun _ _ => { status := 200, text := "ok" } }

/-- A desired change naming an attribute absent from `curDivergence`. -/
def attrsBogus : Dict String := [("Bogus", "1")]

/-- Current state and desired change used by the already-set scenario. -/
def sbAlready : JsonBody := { biosOdataId := none, attributes := [("TimeZone", "Chennai")] }

/-- Desired change equal to the current state in `sbAlready`. -/
def attrsAlready : Dict String := [("TimeZone", "Chennai")]

/-- A client whose service-settings resource already holds every desired
value of `attrsAlready`. -/
def clientAlready : Client :=
  { get := fun uri =>
      if uri = "/redfish/v1/systems/1/" then
        { status := 200, text := "sys",
          body := { biosOdataId := some "b/", attributes := [] } }
      else
        { status := 200, text := "svc", body := sbAlready },
    patch := fun _ _ => { status := 200, text := "ok" } }

/-- A service body with a single attribute `A`, used to exercise the
validator on an unknown requested name. -/
def sbOnlyA : JsonBody := { biosOdataId := none, attributes := [("A", "1")] }

/-- A GET oracle whose primary service path is 404 and whose OEM fallback
path answers 500 with body text `boom`. -/
def getFallbackW : String → HttpResp := fun uri =>
  if uri = "b/service/settings/" then
    { status := 404, text := "nf", body := { biosOdataId := none, attributes := [] } }
  else if uri = "b/oem/hpe/service/settings/" then
    { status := 500, text := "boom", body := { biosOdataId := none, attributes := [] } }
  else
    { status := 200, text := "", body := { biosOdataId := none, attributes := [] } }

/-- An iLORedfishUtils oracle whose routines all succeed. -/
def rfTrivial : RfUtils :=
  { find_managers := { ret := true, msg := "" },
    run := fun _ => { ret := true, changed := true, msg := "ok" } }

/-- An iLORedfishUtils oracle where `SetTimeZone` reports failure and
every other routine succeeds. -/
def rfFirstFails : RfUtils :=
  { find_managers := { ret := true, msg := "" },
    run := fun cmd =>
      if cmd = "SetTimeZone" then { ret := false, changed := false, msg := "tz failed" }
      else { ret := true, changed := true, msg := "ok" } }

/-! Helper lemmas about the dict operations and the validation scan. -/

lemma dlookup_append {V : Type} (d₁ d₂ : Dict V) (key : String) :
    dlookup (d₁ ++ d₂) key =
      match dlookup d₁ key with
      | some v => some v
      | none => dlookup d₂ key := by
  induction d₁ with
  | nil => rfl
  | cons p rest ih =>
    by_cases h : p.1 = key <;> simp [dlookup, h, ih]

lemma mem_derase {V : Type} (d : Dict V) (key : String) (p : String × V) :
    p ∈ derase d key ↔ p ∈ d ∧ p.1 ≠ key := by
  simp [derase, List.mem_filter]

lemma dupdate_fresh {V : Type} (d : Dict V) (key : String) (v : V)
    (h : dlookup d key = none) : dupdate d key v = d ++ [(key, v)] := by
  simp [dupdate, h]

lemma validateScan_cons_none (cur : Dict String) (hd : String × String)
    (rest : List (String × String)) (toPatch bad : Dict String)
    (h : dlookup cur hd.1 = none) :
    validateScan cur (hd :: rest) toPatch bad =
      validateScan cur rest (derase toPatch hd.1) (dupdate bad hd.1 hd.2) := by
  rw [validateScan]
  simp only [h]

lemma validateScan_cons_eq (cur : Dict String) (hd : String × String)
    (rest : List (String × String)) (toPatch bad : Dict String)
    (h : dlookup cur hd.1 = some hd.2) :
    validateScan cur (hd :: rest) toPatch bad =
      validateScan cur rest (derase toPatch hd.1) bad := by
  rw [validateScan]
  simp [h]

lemma validateScan_cons_ne (cur : Dict String) (hd : String × String)
    (rest : List (String × String)) (toPatch bad : Dict String) (c : String)
    (h : dlookup cur hd.1 = some c) (hne : c ≠ hd.2) :
    validateScan cur (hd :: rest) toPatch bad =
      validateScan cur rest toPatch bad := by
  rw [validateScan]
  simp [h, hne]

lemma validateScan_fst_subset (cur : Dict String) (items : List (String × String)) :
    ∀ (toPatch bad : Dict String) (p : String × String),
      p ∈ (validateScan cur items toPatch bad).1 → p ∈ toPatch := by
  induction items with
  | nil => intro toPatch bad p h; simpa [validateScan] using h
  | cons hd rest ih =>
    intro toPatch bad p h
    cases hcur : dlookup cur hd.1 with
    | none =>
      rw [validateScan_cons_none cur hd rest toPatch bad hcur] at h
      exact ((mem_derase _ _ _).mp (ih _ _ _ h)).1
    | some c =>
      by_cases hc : c = hd.2
      · rw [hc] at hcur
        rw [validateScan_cons_eq cur hd rest toPatch bad hcur] at h
        exact ((mem_derase _ _ _).mp (ih _ _ _ h)).1
      · rw [validateScan_cons_ne cur hd rest toPatch bad c hcur hc] at h
        exact ih _ _ _ h

lemma validateScan_removed (cur : Dict String) (items : List (String × String)) :
    ∀ (toPatch bad : Dict String) (k v : String),
      (dkeys items).Nodup → (k, v) ∈ items →
      (dlookup cur k = none ∨ dlookup cur k = some v) →
      ∀ w, (k, w) ∉ (validateScan cur items toPatch bad).1 := by
  induction items with
  | nil => intro _ _ k v _ hmem; cases hmem
  | cons hd rest ih =>
    intro toPatch bad k v hnd hmem hrem w hw
    have hnd' : (dkeys rest).Nodup := (List.nodup_cons.mp hnd).2
    have hhd : hd.1 ∉ dkeys rest := (List.nodup_cons.mp hnd).1
    rcases List.mem_cons.mp hmem with heq | hmemr
    · -- the head is the offending pair: it gets erased and never returns
      have hk : hd.1 = k := by rw [← heq]
      have hv : hd.2 = v := by rw [← heq]
      rcases hrem with hnone | hsome
      · rw [validateScan_cons_none cur hd rest toPatch bad (by rw [hk]; exact hnone)] at hw
        have := validateScan_fst_subset cur rest _ _ _ hw
        exact ((mem_derase _ _ _).mp this).2 (by rw [hk])
      · rw [validateScan_cons_eq cur hd rest toPatch bad (by rw [hk, hv]; exact hsome)] at hw
        have := validateScan_fst_subset cur rest _ _ _ hw
        exact ((mem_derase _ _ _).mp this).2 (by rw [hk])
    · -- the offending pair sits in the tail; the head key differs
      cases hcur : dlookup cur hd.1 with
      | none =>
        rw [validateScan_cons_none cur hd rest toPatch bad hcur] at hw
        exact ih _ _ k v hnd' hmemr hrem w hw
      | some c =>
        by_cases hc : c = hd.2
        · rw [hc] at hcur
          rw [validateScan_cons_eq cur hd rest toPatch bad hcur] at hw
          exact ih _ _ k v hnd' hmemr hrem w hw
        · rw [validateScan_cons_ne cur hd rest toPatch bad c hcur hc] at hw
          exact ih _ _ k v hnd' hmemr hrem w hw

lemma validateScan_snd (cur : Dict String) (items : List (String × String)) :
    ∀ (toPatch bad : Dict String),
      (dkeys items).Nodup →
      (∀ k, k ∈ dkeys items → dlookup bad k = none) →
      (validateScan cur items toPatch bad).2 =
        bad ++ items.filter (fun p => (dlookup cur p.1).isNone) := by
  induction items with
  | nil => intro toPatch bad _ _; simp [validateScan]
  | cons hd rest ih =>
    intro toPatch bad hnd hbad
    have hnd' : (dkeys rest).Nodup := (List.nodup_cons.mp hnd).2
    have hhd : hd.1 ∉ dkeys rest := (List.nodup_cons.mp hnd).1
    have hheadmem : hd.1 ∈ dkeys (hd :: rest) := by simp [dkeys]
    have hbadr : ∀ k, k ∈ dkeys rest → dlookup bad k = none := by
      intro k hk
      apply hbad
      simp [dkeys] at hk ⊢
      exact Or.inr hk
    cases hcur : dlookup cur hd.1 with
    | none =>
      rw [validateScan_cons_none cur hd rest toPatch bad hcur]
      have hfresh : dlookup bad hd.1 = none := hbad _ hheadmem
      rw [dupdate_fresh bad hd.1 hd.2 hfresh]
      have hbad' : ∀ k, k ∈ dkeys rest → dlookup (bad ++ [(hd.1, hd.2)]) k = none := by
        intro k hk
        rw [dlookup_append, hbadr k hk]
        have : hd.1 ≠ k := fun h => hhd (h ▸ hk)
        simp [dlookup, this]
      rw [ih _ _ hnd' hbad']
      simp [List.filter_cons, hcur, List.append_assoc]
    | some c =>
      have hfilter :
          List.filter (fun p => (dlookup cur p.1).isNone) (hd :: rest) =
            List.filter (fun p => (dlookup cur p.1).isNone) rest := by
        simp [List.filter_cons, hcur]
      by_cases hc : c = hd.2
      · rw [hc] at hcur
        rw [validateScan_cons_eq cur hd rest toPatch bad hcur, ih _ _ hnd' hbadr, hfilter]
      · rw [validateScan_cons_ne cur hd rest toPatch bad c hcur hc, ih _ _ hnd' hbadr,
          hfilter]

lemma validateScan_bad_eq (cur attrs : Dict String) (hnd : (dkeys attrs).Nodup) :
    (validateScan cur attrs attrs []).2 =
      attrs.filter (fun p => (dlookup cur p.1).isNone) := by
  simpa using validateScan_snd cur attrs attrs [] hnd (fun k _ => rfl)

lemma validateScan_fst_not_current (cur attrs : Dict String)
    (hnd : (dkeys attrs).Nodup) (p : String × String)
    (hp : p ∈ (validateScan cur attrs attrs []).1) :
    dlookup cur p.1 ≠ some p.2 := by
  intro heq
  have hmem : p ∈ attrs := validateScan_fst_subset cur attrs attrs [] p hp
  exact validateScan_removed cur attrs attrs [] p.1 p.2 hnd hmem (Or.inr heq) p.2 hp

lemma validateScan_all_equal (cur attrs : Dict String)
    (hnd : (dkeys attrs).Nodup)
    (hall : ∀ p ∈ attrs, dlookup cur p.1 = some p.2) :
    validateScan cur attrs attrs [] = ([], []) := by
  have h1 : (validateScan cur attrs attrs []).1 = [] := by
    rw [List.eq_nil_iff_forall_not_mem]
    intro p hp
    exact validateScan_fst_not_current cur attrs hnd p hp
      (hall p (validateScan_fst_subset cur attrs attrs [] p hp))
  have h2 : (validateScan cur attrs attrs []).2 = [] := by
    rw [validateScan_bad_eq cur attrs hnd]
    apply List.filter_eq_nil_iff.mpr
    intro p hp
    simp [hall p hp]
  calc validateScan cur attrs attrs []
      = ((validateScan cur attrs attrs []).1, (validateScan cur attrs attrs []).2) := rfl
    _ = ([], []) := by rw [h1, h2]

lemma foldl_overwrite_last (f : String → OpResult) (l : List String) :
    ∀ (init : Option OpResult) (last : String), l.getLast? = some last →
      l.foldl (fun _ cmd => some (f cmd)) init = some (f last) := by
  induction l with
  | nil => intro init last h; cases h
  | cons a l ih =>
    intro init last h
    cases l with
    | nil =>
      simp [List.getLast?] at h
      simp [h]
    | cons b l' =>
      rw [List.foldl_cons]
      have h' : (b :: l').getLast? = some last := by
        simpa [List.getLast?_cons_cons] using h
      exact ih _ _ h'

lemma isEmpty_true_of_eq_nil {α : Type} {l : List α} (h : l = []) : l.isEmpty = true := by
  subst h; rfl

lemma isEmpty_false_of_ne_nil {α : Type} {l : List α} (h : l ≠ []) : l.isEmpty = false := by
  cases l with
  | nil => exact absurd rfl h
  | cons a l => rfl

/-- Claim C8: for every current Attribute Set and Desired Change mapping
(keys unique, as in a Python dict), the Diff Payload `attrs_to_patch`
computed by the validation loop is a subset of the Desired Change mapping
and contains no key whose current value already equals the desired
value. -/
theorem c8_diff_payload_invariant (cur attrs : Dict String)
    (hnd : (dkeys attrs).Nodup) :
    (∀ p ∈ (validateScan cur attrs attrs []).1, p ∈ attrs) ∧
    (∀ p ∈ (validateScan cur attrs attrs []).1, dlookup cur p.1 ≠ some p.2) :=
  ⟨fun p hp => validateScan_fst_subset cur attrs attrs [] p hp,
   fun p hp => validateScan_fst_not_current cur attrs hnd p hp⟩

/-- Witness for C8 at the concrete input of the divergence scenario. -/
theorem c8_diff_payload_invariant_witness :
    (dkeys attrsDivergence).Nodup ∧
    ((∀ p ∈ (validateScan curDivergence attrsDivergence attrsDivergence []).1,
        p ∈ attrsDivergence) ∧
     (∀ p ∈ (validateScan curDivergence attrsDivergence attrsDivergence []).1,
        dlookup curDivergence p.1 ≠ some p.2)) :=
  ⟨by decide, c8_diff_payload_invariant curDivergence attrsDivergence (by decide)⟩

/-- Claim C4: the validator fails with the incorrect-attributes error iff
at least one requested key is absent from the current attribute set, and
the reported bad mapping holds exactly the absent keys — the full scan
completes before failing. -/
theorem c4_validator_iff_lists_all (sb : JsonBody) (attrs : Dict String)
    (hnd : (dkeys attrs).Nodup) :
    ((∃ bad, validate_input_attributes sb attrs = ValidateOutcome.failBad bad) ↔
      ∃ p ∈ attrs, dlookup sb.attributes p.1 = none) ∧
    (∀ bad, validate_input_attributes sb attrs = ValidateOutcome.failBad bad →
      ∀ p, p ∈ bad ↔ p ∈ attrs ∧ dlookup sb.attributes p.1 = none) := by
  have hbadeq := validateScan_bad_eq sb.attributes attrs hnd
  have key : validate_input_attributes sb attrs =
      (if (attrs.filter (fun p => (dlookup sb.attributes p.1).isNone)).isEmpty then
        (if (validateScan sb.attributes attrs attrs []).1.isEmpty then
          ValidateOutcome.exitAlreadySet
         else ValidateOutcome.proceed (validateScan sb.attributes attrs attrs []).1)
       else ValidateOutcome.failBad
         (attrs.filter (fun p => (dlookup sb.attributes p.1).isNone))) := by
    simp only [validate_input_attributes, hbadeq]
  rcases hsplit : attrs.filter (fun p => (dlookup sb.attributes p.1).isNone) with _ | ⟨q, qs⟩
  · have hnone : ∀ p ∈ attrs, ¬ ((dlookup sb.attributes p.1).isNone = true) :=
      List.filter_eq_nil_iff.mp hsplit
    rw [hsplit] at key
    constructor
    · constructor
      · rintro ⟨bad, hb⟩
        rw [key] at hb
        by_cases h1 : (validateScan sb.attributes attrs attrs []).1.isEmpty <;>
          simp [h1] at hb
      · rintro ⟨p, hp, hpn⟩
        exact (hnone p hp (by simp [hpn])).elim
    · intro bad hb
      rw [key] at hb
      by_cases h1 : (validateScan sb.attributes attrs attrs []).1.isEmpty <;>
        simp [h1] at hb
  · rw [hsplit] at key
    have key' : validate_input_attributes sb attrs = ValidateOutcome.failBad (q :: qs) := by
      simpa using key
    have hqmem : q ∈ attrs.filter (fun p => (dlookup sb.attributes p.1).isNone) := by
      rw [hsplit]; exact List.mem_cons_self q qs
    constructor
    · constructor
      · intro _
        rcases List.mem_filter.mp hqmem with ⟨hqa, hqn⟩
        exact ⟨q, hqa, Option.isNone_iff_eq_none.mp hqn⟩
      · intro _
        exact ⟨q :: qs, key'⟩
    · intro bad hb
      rw [key'] at hb
      have hbad : bad = q :: qs := by
        injection hb.symm
      intro p
      rw [hbad, ← hsplit]
      simp [List.mem_filter, Option.isNone_iff_eq_none]

/-- Witness for C4: requesting `Bogus` against a set holding only `A`
fails, and the bad mapping is exactly the absent pair. -/
theorem c4_validator_iff_lists_all_witness :
    (dkeys attrsBogus).Nodup ∧
    (((∃ bad, validate_input_attributes sbOnlyA attrsBogus = ValidateOutcome.failBad bad) ↔
       ∃ p ∈ attrsBogus, dlookup sbOnlyA.attributes p.1 = none) ∧
     (∀ bad, validate_input_attributes sbOnlyA attrsBogus = ValidateOutcome.failBad bad →
       ∀ p, p ∈ bad ↔ p ∈ attrsBogus ∧ dlookup sbOnlyA.attributes p.1 = none)) :=
  ⟨by decide, c4_validator_iff_lists_all sbOnlyA attrsBogus (by decide)⟩

/-- Claim C5: when every requested attribute exists in the current set and
already holds its desired value, the module exits successfully with
changed=false and the already-set message, and no PATCH is issued. -/
theorem c5_already_set_no_write (client : Client) (attrs : Dict String)
    (su : String) (sb : JsonBody) (bios_uri : String)
    (hnd : (dkeys attrs).Nodup)
    (h200 : (client.get (base_uri ++ system_uri)).status = 200)
    (hbios : (client.get (base_uri ++ system_uri)).body.biosOdataId = some bios_uri)
    (hsvc : get_service_bios_attributes client.get bios_uri = Except.ok (su, sb))
    (hall : ∀ p ∈ attrs, dlookup sb.attributes p.1 = some p.2) :
    set_service_bios_attributes client attrs =
      SetOutcome.exitJson false "Service BIOS attributes already set" ∧
    patchSent (set_service_bios_attributes client attrs) = none := by
  have hvalid : validate_input_attributes sb attrs = ValidateOutcome.exitAlreadySet := by
    simp [validate_input_attributes, validateScan_all_equal sb.attributes attrs hnd hall]
  have hset : set_service_bios_attributes client attrs =
      SetOutcome.exitJson false "Service BIOS attributes already set" := by
    simp [set_service_bios_attributes, h200, hbios, hsvc, hvalid]
  exact ⟨hset, by rw [hset]; rfl⟩

/-- Witness for C5: desired TimeZone already Chennai — already-set exit,
no PATCH sent. -/
theorem c5_already_set_no_write_witness :
    (∀ p ∈ attrsAlready, dlookup sbAlready.attributes p.1 = some p.2) ∧
    (set_service_bios_attributes clientAlready attrsAlready =
        SetOutcome.exitJson false "Service BIOS attributes already set" ∧
      patchSent (set_service_bios_attributes clientAlready attrsAlready) = none) :=
  ⟨by decide,
   c5_already_set_no_write clientAlready attrsAlready
     "b/service/settings/" sbAlready "b/" (by decide) (by decide) (by decide)
     (by rfl) (by decide)⟩

/-- Claim C6: a primary 404 triggers the OEM fallback exactly once; a
primary status that is neither 404 nor 200 triggers no fallback; and when
the attempt that ends the read has a non-200 status, the reported error
carries that attempt's URI, status and response body. -/
theorem c6_fallback_once_and_error (get : String → HttpResp) (bios_uri : String) :
    (((get (bios_uri ++ service_settings_path)).status = 404 →
        serviceGetUris get bios_uri =
          [bios_uri ++ service_settings_path, bios_uri ++ oem_settings_path]) ∧
     ((get (bios_uri ++ service_settings_path)).status ≠ 404 ∧
        (get (bios_uri ++ service_settings_path)).status ≠ 200 →
        serviceGetUris get bios_uri = [bios_uri ++ service_settings_path])) ∧
    (∀ finalUri,
      finalUri = (if (get (bios_uri ++ service_settings_path)).status = 404 then
                    bios_uri ++ oem_settings_path
                  else bios_uri ++ service_settings_path) →
      (get finalUri).status ≠ 200 →
      get_service_bios_attributes get bios_uri =
        Except.error { method := "GET", uri := finalUri,
                       status := (get finalUri).status,
                       response := (get finalUri).text }) := by
  refine ⟨⟨?_, ?_⟩, ?_⟩
  · intro h404
    simp [serviceGetUris, h404]
  · rintro ⟨h404, _⟩
    simp [serviceGetUris, h404]
  · intro finalUri hfu hne
    by_cases h404 : (get (bios_uri ++ service_settings_path)).status = 404
    · rw [if_pos h404] at hfu
      subst hfu
      simp [get_service_bios_attributes, h404, hne]
    · rw [if_neg h404] at hfu
      subst hfu
      simp [get_service_bios_attributes, h404, hne]

/-- Witness for C6: primary 404, fallback 500 — both URIs requested in
order, error reports the fallback attempt. -/
theorem c6_fallback_once_and_error_witness :
    serviceGetUris getFallbackW "b/" =
      ["b/service/settings/", "b/oem/hpe/service/settings/"] ∧
    get_service_bios_attributes getFallbackW "b/" =
      Except.error { method := "GET", uri := "b/oem/hpe/service/settings/",
                     status := 500, response := "boom" } :=
  ⟨(c6_fallback_once_and_error getFallbackW "b/").1.1 (by decide),
   (c6_fallback_once_and_error getFallbackW "b/").2 "b/oem/hpe/service/settings/"
     (by decide) (by decide)⟩

/-- Claim C1, evaluated at the failing input: `A` is already at its
desired value, so the Diff Payload is only `B`; the PATCH body the code
sends is nevertheless the full requested mapping, `A` included. -/
theorem c1_patch_body_divergence :
    set_service_bios_attributes clientDivergence attrsDivergence =
      SetOutcome.returned "b/service/settings/" attrsDivergence ∧
    patchSent (set_service_bios_attributes clientDivergence attrsDivergence) =
      some ("b/service/settings/", attrsDivergence) ∧
    (validateScan curDivergence attrsDivergence attrsDivergence []).1 = [("B", "3")] ∧
    ("A", "1") ∈ attrsDivergence ∧ dlookup curDivergence "A" = some "1" := by
  decide

/-- Claim C2 counterexample: a failing exit (bad attributes) terminates
the module before the logout call. -/
theorem c2_logout_counterexample :
    (bios_main clientDivergence attrsBogus).outcome =
      SetOutcome.badAttributes [("Bogus", "1")] ∧
    (bios_main clientDivergence attrsBogus).logoutCalled = false := by
  decide

/-- Claim C2 (amended): logout executes exactly when
`set_service_bios_attributes` returns normally after a successful PATCH;
every fail_json path and the already-set exit_json path terminate the
module without logout. -/
theorem c2_logout_amended (client : Client) (attrs : Dict String) :
    (bios_main client attrs).logoutCalled = true ↔
      ∃ uri body, (bios_main client attrs).outcome = SetOutcome.returned uri body := by
  simp only [bios_main]
  generalize set_service_bios_attributes client attrs = o
  cases o <;> simp [isReturned]

/-- Claim C7: a command list containing a name outside the Manager
allow-list fails before any operation runs, the reported offenders cover
every invalid name, and the full allowed set is reported alongside. -/
theorem c7_invalid_commands_fail_first (rf : RfUtils) (command_list : List String)
    (h : ∃ cmd ∈ command_list, cmd ∉ allowedCommands "Manager") :
    ilo_main rf "Manager" command_list =
      IloOutcome.invalidCommands
        (command_list.filter (fun cmd => decide (cmd ∉ allowedCommands "Manager")))
        (allowedCommands "Manager") ∧
    (∀ cmd ∈ command_list, cmd ∉ allowedCommands "Manager" →
      cmd ∈ command_list.filter (fun cmd => decide (cmd ∉ allowedCommands "Manager"))) ∧
    executedCommands rf "Manager" command_list = [] := by
  obtain ⟨c, hc, hcn⟩ := h
  have hne : (command_list.filter
      (fun cmd => decide (cmd ∉ allowedCommands "Manager"))).isEmpty = false := by
    apply isEmpty_false_of_ne_nil
    intro hfl
    exact List.filter_eq_nil_iff.mp hfl c hc (decide_eq_true hcn)
  refine ⟨?_, ?_, ?_⟩
  · simp only [ilo_main, hne, Bool.false_eq_true, if_false]
  · intro cmd hm hnm
    exact List.mem_filter.mpr ⟨hm, decide_eq_true hnm⟩
  · simp only [executedCommands, hne, Bool.false_eq_true, if_false]

/-- Witness for C7 at `command=[SetTimeZone, Bogus]`. -/
theorem c7_invalid_commands_fail_first_witness :
    (∃ cmd ∈ ["SetTimeZone", "Bogus"], cmd ∉ allowedCommands "Manager") ∧
    (ilo_main rfTrivial "Manager" ["SetTimeZone", "Bogus"] =
       IloOutcome.invalidCommands ["Bogus"]
         ["SetTimeZone", "SetDNSserver", "SetDomainName", "SetNTPServers",
          "SetWINSReg"] ∧
     executedCommands rfTrivial "Manager" ["SetTimeZone", "Bogus"] = []) :=
  ⟨by decide,
   ⟨(c7_invalid_commands_fail_first rfTrivial ["SetTimeZone", "Bogus"] (by decide)).1,
    (c7_invalid_commands_fail_first rfTrivial ["SetTimeZone", "Bogus"] (by decide)).2.2⟩⟩

/-- Claim C3 counterexample: with `SetTimeZone` failing and `SetDNSserver`
succeeding, both routines execute — the failing first operation does not
abort the later one, and the invocation even reports success. -/
theorem c3_first_failure_counterexample :
    (rfFirstFails.run "SetTimeZone").ret = false ∧
    executedCommands rfFirstFails "Manager" ["SetTimeZone", "SetDNSserver"] =
      ["SetTimeZone", "SetDNSserver"] ∧
    ilo_main rfFirstFails "Manager" ["SetTimeZone", "SetDNSserver"] =
      IloOutcome.exitJson true "ok" := by
  decide

/-- Claim C3 (amended): the dispatch loop has no break — once every name
is valid and the manager resource is found, every listed operation's
routine executes in the caller-given order regardless of which routines
report failure. -/
theorem c3_no_abort_amended (rf : RfUtils) (command_list : List String)
    (hvalid : ∀ cmd ∈ command_list, cmd ∈ allowedCommands "Manager")
    (hres : rf.find_managers.ret = true) :
    executedCommands rf "Manager" command_list = command_list := by
  have hemp : (command_list.filter
      (fun cmd => decide (cmd ∉ allowedCommands "Manager"))).isEmpty = true := by
    apply isEmpty_true_of_eq_nil
    apply List.filter_eq_nil_iff.mpr
    intro a ha
    simp [hvalid a ha]
  simp only [executedCommands, hemp, hres, eq_self_iff_true, if_true]

/-- Witness for C3 (amended): both commands execute although the first
routine fails. -/
theorem c3_no_abort_amended_witness :
    (∀ cmd ∈ ["SetTimeZone", "SetDNSserver"], cmd ∈ allowedCommands "Manager") ∧
    executedCommands rfFirstFails "Manager" ["SetTimeZone", "SetDNSserver"] =
      ["SetTimeZone", "SetDNSserver"] :=
  ⟨by decide,
   c3_no_abort_amended rfFirstFails ["SetTimeZone", "SetDNSserver"]
     (by decide) (by decide)⟩

/-- Claim C9: when every command is valid and every routine runs, the
reported record is exactly the result of the last executed operation in
the caller-given order. -/
theorem c9_last_result_reported (rf : RfUtils) (command_list : List String)
    (last : String)
    (hvalid : ∀ cmd ∈ command_list, cmd ∈ allowedCommands "Manager")
    (hres : rf.find_managers.ret = true)
    (hlast : command_list.getLast? = some last) :
    ilo_main rf "Manager" command_list = finalRetCheck (some (rf.run last)) := by
  have hemp : (command_list.filter
      (fun cmd => decide (cmd ∉ allowedCommands "Manager"))).isEmpty = true := by
    apply isEmpty_true_of_eq_nil
    apply List.filter_eq_nil_iff.mpr
    intro a ha
    simp [hvalid a ha]
  simp only [ilo_main, hemp, hres, eq_self_iff_true, if_true,
    foldl_overwrite_last rf.run command_list none last hlast]

/-- Witness for C9: the reported record is that of the second (last)
command, although the first one failed. -/
theorem c9_last_result_reported_witness :
    (["SetTimeZone", "SetDNSserver"].getLast? = some "SetDNSserver") ∧
    ilo_main rfFirstFails "Manager" ["SetTimeZone", "SetDNSserver"] =
      finalRetCheck (some (rfFirstFails.run "SetDNSserver")) :=
  ⟨by decide,
   c9_last_result_reported rfFirstFails ["SetTimeZone", "SetDNSserver"]
     "SetDNSserver" (by decide) (by decide) (by decide)⟩

/-- Claim C10: with an empty (but present) command list and successful
resource location, the loop executes nothing and the final step reads the
`ret` key of the still-empty result mapping — an unguarded lookup of an
absent key, not a success or failure report. -/
theorem c10_empty_command_ret_lookup (rf : RfUtils)
    (hres : rf.find_managers.ret = true) :
    ilo_main rf "Manager" [] = IloOutcome.missingRetKey ∧
    executedCommands rf "Manager" [] = [] := by
  constructor <;> simp [ilo_main, executedCommands, hres, finalRetCheck]

/-- Witness for C10 with the all-succeeding oracle. -/
theorem c10_empty_command_ret_lookup_witness :
    rfTrivial.find_managers.ret = true ∧
    (ilo_main rfTrivial "Manager" [] = IloOutcome.missingRetKey ∧
     executedCommands rfTrivial "Manager" [] = []) :=
  ⟨rfl, c10_empty_command_ret_lookup rfTrivial rfl⟩
